import Mathlib

/-!
Verification of the commit-history generator `github_contribution.py`.

The script is embedded shallowly:

* Python `datetime` values are modelled as an absolute count of
  microseconds (`DateTime.us : Int`) since the proleptic-Gregorian date
  0001-01-01 00:00:00 (Python's ordinal 1, a Monday), so `timedelta`
  arithmetic is plain integer arithmetic and `replace`, `weekday`,
  `hour`, … are arithmetic projections.
* The process-wide random generator is modelled as an oracle stream
  `g : Nat → Nat`; each `random.randint(a, b)` call consumes one oracle
  value `r` and returns `a + r % (b - a + 1)`, which ranges over exactly
  the inclusive interval `[a, b]` when `a ≤ b`.  Calls consume positions
  of the stream in the evaluation order of the Python source.
* Side-effecting driver steps (`os.mkdir`, `os.chdir`, `Popen`, file
  append, `print`) are reified as an `Action` trace; the only modelled
  failure is `os.mkdir` on an existing directory.
-/

namespace GHContrib

/-- Microseconds per second, as in Python's `datetime` resolution. -/
def usPerSecond : Int := 1000000

/-- Microseconds per minute. -/
def usPerMinute : Int := 60000000

/-- Microseconds per hour. -/
def usPerHour : Int := 3600000000

/-- Microseconds per day. -/
def usPerDay : Int := 86400000000

/-- A Python `datetime.datetime` value: microseconds since 0001-01-01
00:00:00 (day 0 is Python ordinal 1, a Monday). -/
structure DateTime where
  us : Int
deriving DecidableEq, Repr

/-- Days since 0001-01-01 (Python `toordinal() - 1`). -/
def DateTime.dayNumber (d : DateTime) : Int := d.us / usPerDay

/-- Microseconds elapsed since the datetime's own midnight. -/
def DateTime.timeOfDay (d : DateTime) : Int := d.us % usPerDay

/-- Python `datetime.hour`. -/
def DateTime.hour (d : DateTime) : Int := d.timeOfDay / usPerHour

/-- Python `datetime.minute`. -/
def DateTime.minute (d : DateTime) : Int :=
  (d.timeOfDay % usPerHour) / usPerMinute

/-- Python `datetime.second`. -/
def DateTime.second (d : DateTime) : Int :=
  (d.us % usPerMinute) / usPerSecond

/-- Python `datetime.microsecond`. -/
def DateTime.microsecond (d : DateTime) : Int := d.us % usPerSecond

/-- Python `datetime.weekday()`: Monday is 0, Sunday is 6. -/
def DateTime.weekday (d : DateTime) : Int := d.dayNumber % 7

/-- Python `d + timedelta(n)` (whole days). -/
def DateTime.addDays (d : DateTime) (n : Int) : DateTime :=
  ⟨d.us + n * usPerDay⟩

/-- Python `d + timedelta(minutes = m)`. -/
def DateTime.addMinutes (d : DateTime) (m : Int) : DateTime :=
  ⟨d.us + m * usPerMinute⟩

/-- Python `d.replace(hour = h, minute = m)`: the calendar day and the
seconds-and-microseconds remainder are kept, the hour and minute are
overwritten. -/
def DateTime.replaceHourMinute (d : DateTime) (h m : Int) : DateTime :=
  ⟨d.dayNumber * usPerDay + h * usPerHour + m * usPerMinute
    + d.us % usPerMinute⟩

/-- Python `random.randint(a, b)` consuming one oracle value `r`: a value
in the inclusive range `[a, b]` (when `a ≤ b`, which holds at every call
site of the script). -/
def randint (a b : Int) (r : Nat) : Int :=
  a + ((r % (b - a + 1).toNat : Nat) : Int)

/-- The parsed command-line arguments of the script (`parse_arguments`). -/
structure Config where
  no_weekends : Bool
  max_commits : Int
  frequency : Int
  repository : Option String
  user_name : Option String
  user_email : Option String
  days_before : Int
  days_after : Int
deriving DecidableEq, Repr

/-- `GitRepository._contributions_per_day`:
`randint(1, max(1, min(20, max_commits)))`, consuming one oracle value. -/
def contributions_per_day (max_commits : Int) (r : Nat) : Int :=
  randint 1 (max 1 (min 20 max_commits)) r

/-- One iteration of the day loop of `_generate_commit_dates`, at oracle
position `i`.  Returns the commit dates appended for this candidate day
and the next oracle position.  A weekend day skipped by `no_weekends`
consumes no draw; an excluded day consumes the frequency draw only; an
included day consumes the frequency draw, the `_contributions_per_day()`
draw (evaluated first, as the argument of the outer `randint`), and the
outer `randint(1, _contributions_per_day())` draw. -/
def dayStep (cfg : Config) (g : Nat → Nat) (day : DateTime) (i : Nat) :
    List DateTime × Nat :=
  if cfg.no_weekends && decide (5 ≤ day.weekday) then ([], i)
  else if randint 0 100 (g i) < cfg.frequency then
    ((List.range (randint 1 (contributions_per_day cfg.max_commits (g (i + 1)))
        (g (i + 2))).toNat).map (fun m : Nat => day.addMinutes (m : Int)), i + 3)
  else ([], i + 1)

/-- The day loop of `_generate_commit_dates`: `k` candidate days remain,
the next candidate day is `start + n` days, and the oracle is at
position `i`.  Batches are appended in day order, as the Python loop
appends to `commit_dates`. -/
def genFrom (cfg : Config) (g : Nat → Nat) (start : DateTime) :
    Nat → Nat → Nat → List DateTime
  | 0, _, _ => []
  | k + 1, n, i =>
    (dayStep cfg g (start.addDays (n : Int)) i).1
      ++ genFrom cfg g start k (n + 1) (dayStep cfg g (start.addDays (n : Int)) i).2

/-- `GitRepository._generate_commit_dates`: the start date is
`curr.replace(hour=20, minute=0) - timedelta(days_before)` and the loop
runs over `range(days_before + days_after)` (empty when the sum is not
positive). -/
def generate_commit_dates (cfg : Config) (curr : DateTime) (g : Nat → Nat) :
    List DateTime :=
  genFrom cfg g ((curr.replaceHourMinute 20 0).addDays (-cfg.days_before))
    (cfg.days_before + cfg.days_after).toNat 0 0

/-- Python `str.rfind(c)` on a list of characters: the highest index at
which `c` occurs, or `-1` when it does not occur. -/
def rfindChar (c : Char) : List Char → Int
  | [] => -1
  | x :: xs =>
    if rfindChar c xs = -1 then (if x = c then 0 else -1)
    else rfindChar c xs + 1

/-- Python slicing `s[start:stop]` with integer bounds: a negative bound
counts from the end of the string, then both bounds are clamped to
`[0, len]`, and an empty slice results when `stop ≤ start`. -/
def pySlice (s : List Char) (start stop : Int) : List Char :=
  let n : Int := s.length
  let a := if start < 0 then max 0 (n + start) else min start n
  let b := if stop < 0 then max 0 (n + stop) else min stop n
  (s.drop a.toNat).take (b - a).toNat

/-- Decimal digits of a positive number, most significant first; the
first argument is fuel (`n` itself suffices). -/
def natDigits : Nat → Nat → List Char
  | 0, _ => []
  | _ + 1, 0 => []
  | fuel + 1, n + 1 =>
    natDigits fuel ((n + 1) / 10) ++ [Char.ofNat (48 + (n + 1) % 10)]

/-- Decimal rendering of a natural number. -/
def natToString (n : Nat) : String :=
  if n = 0 then "0" else ⟨natDigits n n⟩

/-- A number printed in decimal and zero-padded on the left to `w`
characters, as `strftime` pads `%Y %m %d %H %M %S`. -/
def padNum (w : Nat) (n : Int) : String :=
  ⟨List.replicate (w - (natToString n.toNat).length) '0'⟩ ++ natToString n.toNat

/-- Proleptic-Gregorian decomposition of a day number (days since
0001-01-01) into (year, month, day), as Python's `datetime` calendar
computes it; standard civil-from-days era arithmetic. -/
def civilFromDay (day : Int) : Int × Int × Int :=
  let z := day + 306
  let era := z / 146097
  let doe := z - era * 146097
  let yoe := (doe - doe / 1460 + doe / 36524 - doe / 146096) / 365
  let y := yoe + era * 400
  let doy := doe - (365 * yoe + yoe / 4 - yoe / 100)
  let mp := (5 * doy + 2) / 153
  let dm := doy - (153 * mp + 2) / 5 + 1
  let m := if mp < 10 then mp + 3 else mp - 9
  (if m ≤ 2 then y + 1 else y, m, dm)

/-- Python `strftime("%Y-%m-%d-%H-%M-%S")`, used for the default
directory name. -/
def strftimeDashed (d : DateTime) : String :=
  padNum 4 (civilFromDay d.dayNumber).1 ++ "-"
    ++ padNum 2 (civilFromDay d.dayNumber).2.1 ++ "-"
    ++ padNum 2 (civilFromDay d.dayNumber).2.2 ++ "-"
    ++ padNum 2 d.hour ++ "-" ++ padNum 2 d.minute ++ "-" ++ padNum 2 d.second

/-- `GitRepository._generate_commit_message`:
`strftime("Contribution: %Y-%m-%d %H:%M")`. -/
def generate_commit_message (d : DateTime) : String :=
  "Contribution: " ++ padNum 4 (civilFromDay d.dayNumber).1 ++ "-"
    ++ padNum 2 (civilFromDay d.dayNumber).2.1 ++ "-"
    ++ padNum 2 (civilFromDay d.dayNumber).2.2 ++ " "
    ++ padNum 2 d.hour ++ ":" ++ padNum 2 d.minute

/-- The `--date` argument of the commit command:
`strftime(chr(34) ++ "%Y-%m-%d %H:%M:%S" ++ chr(34))`, the date wrapped
in literal double quotes. -/
def strftimeQuoted (d : DateTime) : String :=
  "\"" ++ padNum 4 (civilFromDay d.dayNumber).1 ++ "-"
    ++ padNum 2 (civilFromDay d.dayNumber).2.1 ++ "-"
    ++ padNum 2 (civilFromDay d.dayNumber).2.2 ++ " "
    ++ padNum 2 d.hour ++ ":" ++ padNum 2 d.minute ++ ":" ++ padNum 2 d.second
    ++ "\""

/-- `GitRepository._determine_directory`: with a remote URL, the Python
slice `url[url.rfind(chr(47)) + 1 : url.rfind(chr(46))]`; otherwise
`repository-` followed by the start time formatted `%Y-%m-%d-%H-%M-%S`. -/
def determine_directory (repository : Option String) (curr : DateTime) :
    String :=
  match repository with
  | some url =>
      ⟨pySlice url.data (rfindChar '/' url.data + 1) (rfindChar '.' url.data)⟩
  | none => "repository-" ++ strftimeDashed curr

/-- The one modelled failure of the driver: `os.mkdir` on an existing
directory raises `FileExistsError`. -/
inductive PyErr where
  | fileExistsError (dir : String)
deriving DecidableEq, Repr

/-- A reified side effect of the driver. -/
inductive Action where
  | mkdirA (dir : String)
  | chdirA (dir : String)
  | runCommandA (args : List String)
  | appendFileA (file content : String)
  | printA (msg : String)
deriving DecidableEq, Repr

/-- `GitRepository._contribute(date)`: append the dated line to
`README.md`, stage everything, and commit with the forced date. -/
def contribute (d : DateTime) : List Action :=
  [ .appendFileA "README.md" (generate_commit_message d ++ "\n\n"),
    .runCommandA ["git", "add", "."],
    .runCommandA ["git", "commit", "-m", generate_commit_message d,
      "--date", strftimeQuoted d] ]

/-- `GitRepository._create_and_initialize_repository` against a set of
already-existing directory names: `os.mkdir` fails with
`FileExistsError` when the directory exists, otherwise the directory is
created, entered, the repository initialized with primary branch
`main`, and the optional identity overrides applied (name, then
email). -/
def create_and_initialize_repository (cfg : Config) (dir : String)
    (fs : List String) : Except PyErr (List String × List Action) :=
  if dir ∈ fs then .error (.fileExistsError dir)
  else .ok (dir :: fs,
    [.mkdirA dir, .chdirA dir, .runCommandA ["git", "init", "-b", "main"]]
    ++ (match cfg.user_name with
        | some n => [Action.runCommandA ["git", "config", "user.name", n]]
        | none => [])
    ++ (match cfg.user_email with
        | some e => [Action.runCommandA ["git", "config", "user.email", e]]
        | none => []))

/-- `GitRepository._setup_remote_repository`. -/
def setup_remote_repository (url : String) : List Action :=
  [ .runCommandA ["git", "remote", "add", "origin", url],
    .runCommandA ["git", "branch", "-M", "main"],
    .runCommandA ["git", "push", "-u", "origin", "main"] ]

/-- `GitRepository.setup`: create and initialize the repository, one
contribution per generated commit date, optional remote setup, then the
success notice.  The result is the executed action trace paired with the
outcome; the directory-exists error propagates before any action runs. -/
def setup (cfg : Config) (curr : DateTime) (g : Nat → Nat)
    (fs : List String) : List Action × Except PyErr Unit :=
  match create_and_initialize_repository cfg
      (determine_directory cfg.repository curr) fs with
  | .error e => ([], .error e)
  | .ok (_, acts) =>
      (acts ++ (generate_commit_dates cfg curr g).flatMap contribute
        ++ (match cfg.repository with
            | some url => setup_remote_repository url
            | none => [])
        ++ [.printA "\nRepository generation completed successfully!"],
       .ok ())

theorem randint_lb (a b : Int) (r : Nat) : a ≤ randint a b r := by
  unfold randint; omega

theorem randint_ub (a b : Int) (r : Nat) (h : a ≤ b) : randint a b r ≤ b := by
  unfold randint
  have h1 : 0 < (b - a + 1).toNat := by omega
  have h2 : r % (b - a + 1).toNat < (b - a + 1).toNat := Nat.mod_lt _ h1
  omega

/-- Bounds shared by every per-day commit count: the inner
`_contributions_per_day` draw lies in `[1, max 1 (min 20 max_commits)]`
and the outer draw lies in `[1, inner draw]`, everything at most 20. -/
theorem count_bounds (mc : Int) (r1 r2 : Nat) :
    1 ≤ randint 1 (contributions_per_day mc r1) r2
    ∧ randint 1 (contributions_per_day mc r1) r2 ≤ contributions_per_day mc r1
    ∧ 1 ≤ contributions_per_day mc r1
    ∧ contributions_per_day mc r1 ≤ max 1 (min 20 mc)
    ∧ (1 : Int) ≤ max 1 (min 20 mc) ∧ max 1 (min 20 mc) ≤ 20 := by
  have hc1 : (1 : Int) ≤ max 1 (min 20 mc) := le_max_left _ _
  have hc2 : max 1 (min 20 mc) ≤ 20 := max_le (by norm_num) (min_le_left _ _)
  have hB1 : 1 ≤ contributions_per_day mc r1 := randint_lb _ _ _
  have hB2 : contributions_per_day mc r1 ≤ max 1 (min 20 mc) :=
    randint_ub _ _ _ hc1
  exact ⟨randint_lb _ _ _, randint_ub _ _ _ hB1, hB1, hB2, hc1, hc2⟩

theorem dayStep_skip {cfg : Config} {g : Nat → Nat} {day : DateTime} {i : Nat}
    (h : (cfg.no_weekends && decide (5 ≤ day.weekday)) = true) :
    dayStep cfg g day i = ([], i) := by
  rw [dayStep, if_pos h]

theorem dayStep_excluded {cfg : Config} {g : Nat → Nat} {day : DateTime}
    {i : Nat} (h1 : ¬(cfg.no_weekends && decide (5 ≤ day.weekday)) = true)
    (h2 : ¬randint 0 100 (g i) < cfg.frequency) :
    dayStep cfg g day i = ([], i + 1) := by
  rw [dayStep, if_neg h1, if_neg h2]

theorem dayStep_included {cfg : Config} {g : Nat → Nat} {day : DateTime}
    {i : Nat} (h1 : ¬(cfg.no_weekends && decide (5 ≤ day.weekday)) = true)
    (h2 : randint 0 100 (g i) < cfg.frequency) :
    dayStep cfg g day i =
      ((List.range (randint 1 (contributions_per_day cfg.max_commits (g (i + 1)))
          (g (i + 2))).toNat).map (fun m : Nat => day.addMinutes (m : Int)),
       i + 3) := by
  rw [dayStep, if_neg h1, if_pos h2]

/-- Every generated commit date is some candidate day of the loop plus a
minute offset below 20, and that candidate day passed the weekend filter
when it is active. -/
theorem mem_genFrom {cfg : Config} {g : Nat → Nat} {start : DateTime}
    {k n i : Nat} {d : DateTime} (hd : d ∈ genFrom cfg g start k n i) :
    ∃ j m : Nat, n ≤ j ∧ j < n + k ∧ m < 20 ∧
      d = (start.addDays (j : Int)).addMinutes (m : Int) ∧
      (cfg.no_weekends = true → (start.addDays (j : Int)).weekday < 5) := by
  induction k generalizing n i with
  | zero => simp [genFrom] at hd
  | succ k ih =>
    rw [genFrom] at hd
    rcases List.mem_append.1 hd with hb | hr
    · by_cases hw : (cfg.no_weekends
          && decide (5 ≤ (start.addDays (n : Int)).weekday)) = true
      · rw [dayStep_skip hw] at hb
        simp at hb
      · by_cases hf : randint 0 100 (g i) < cfg.frequency
        · rw [dayStep_included hw hf] at hb
          simp only [List.mem_map, List.mem_range] at hb
          obtain ⟨m, hm, hdm⟩ := hb
          have hcb := count_bounds cfg.max_commits (g (i + 1)) (g (i + 2))
          refine ⟨n, m, le_refl n, by omega, by omega, hdm.symm, ?_⟩
          intro hnw
          simp only [hnw, Bool.true_and, decide_eq_true_eq] at hw
          omega
        · rw [dayStep_excluded hw hf] at hb
          simp at hb
    · obtain ⟨j, m, h1, h2, h3, h4, h5⟩ := ih hr
      exact ⟨j, m, by omega, by omega, h3, h4, h5⟩

/-- Everything generated from day offset `n` on lies at or after the
start date plus `n` days. -/
theorem genFrom_lower {cfg : Config} {g : Nat → Nat} {start : DateTime}
    {k n i : Nat} : ∀ d ∈ genFrom cfg g start k n i,
      start.us + (n : Int) * usPerDay ≤ d.us := by
  intro d hd
  obtain ⟨j, m, h1, _, _, h4, _⟩ := mem_genFrom hd
  subst h4
  simp only [DateTime.addDays, DateTime.addMinutes, usPerDay, usPerMinute,
    usPerSecond]
  omega

/-- The generated schedule is strictly increasing in absolute time. -/
theorem genFrom_pairwise {cfg : Config} {g : Nat → Nat} {start : DateTime} :
    ∀ k n i, (genFrom cfg g start k n i).Pairwise (fun a b => a.us < b.us) := by
  intro k
  induction k with
  | zero => intro n i; simp [genFrom]
  | succ k ih =>
    intro n i
    rw [genFrom]
    refine List.pairwise_append.2 ⟨?_, ih _ _, ?_⟩
    · by_cases hw : (cfg.no_weekends
          && decide (5 ≤ (start.addDays (n : Int)).weekday)) = true
      · rw [dayStep_skip hw]; simp
      · by_cases hf : randint 0 100 (g i) < cfg.frequency
        · rw [dayStep_included hw hf]
          refine List.Pairwise.map _ (fun a b hab => ?_) (List.pairwise_lt_range _)
          simp only [DateTime.addMinutes, usPerMinute, usPerSecond]
          omega
        · rw [dayStep_excluded hw hf]; simp
    · intro a ha b hb
      have hbl := genFrom_lower b hb
      by_cases hw : (cfg.no_weekends
          && decide (5 ≤ (start.addDays (n : Int)).weekday)) = true
      · rw [dayStep_skip hw] at ha
        simp at ha
      · by_cases hf : randint 0 100 (g i) < cfg.frequency
        · rw [dayStep_included hw hf] at ha
          simp only [List.mem_map, List.mem_range] at ha
          obtain ⟨m, hm, ha'⟩ := ha
          have hcb := count_bounds cfg.max_commits (g (i + 1)) (g (i + 2))
          subst ha'
          simp only [DateTime.addDays, DateTime.addMinutes, usPerDay,
            usPerMinute, usPerSecond] at hbl ⊢
          omega
        · rw [dayStep_excluded hw hf] at ha
          simp at ha

/-- C1: every commit date produced by the synthesizer lies in the
half-open window from `anchor - days_before` days (inclusive) to
`anchor + days_after` days (exclusive), where the anchor is the current
time with hour 20 and minute 0; each date is the anchor plus `n`
calendar days plus `m` minutes with `-days_before ≤ n < days_after` and
`0 ≤ m < 20`. -/
theorem C1_commit_window (cfg : Config) (curr : DateTime) (g : Nat → Nat) :
    ∀ d ∈ generate_commit_dates cfg curr g,
      ∃ n m : Int, -cfg.days_before ≤ n ∧ n < cfg.days_after ∧
        0 ≤ m ∧ m < 20 ∧
        d.us = (curr.replaceHourMinute 20 0).us + n * usPerDay + m * usPerMinute ∧
        (curr.replaceHourMinute 20 0).us - cfg.days_before * usPerDay ≤ d.us ∧
        d.us < (curr.replaceHourMinute 20 0).us + cfg.days_after * usPerDay := by
  intro d hd
  obtain ⟨j, m, h1, h2, h3, h4, _⟩ := mem_genFrom hd
  refine ⟨(j : Int) - cfg.days_before, (m : Int), by omega, by omega, by omega,
    by omega, ?_, ?_, ?_⟩ <;>
  · subst h4
    simp only [DateTime.addDays, DateTime.addMinutes, usPerDay, usPerMinute,
      usPerSecond]
    omega

/-- C5: with the suppress-weekends flag set, no generated commit date
falls on a Saturday or Sunday (weekday index 5 or 6, Monday = 0). -/
theorem C5_no_weekends (cfg : Config) (curr : DateTime) (g : Nat → Nat)
    (hnw : cfg.no_weekends = true) :
    ∀ d ∈ generate_commit_dates cfg curr g, d.weekday < 5 := by
  intro d hd
  obtain ⟨j, m, _, _, hm, h4, h5⟩ := mem_genFrom hd
  have h5' := h5 hnw
  subst h4
  simp only [DateTime.weekday, DateTime.dayNumber, DateTime.addDays,
    DateTime.addMinutes, DateTime.replaceHourMinute, DateTime.timeOfDay,
    usPerDay, usPerMinute, usPerHour, usPerSecond] at h5' ⊢
  omega

/-- C7: the generated schedule is strictly increasing in chronological
order: days appear in increasing calendar order and the minute offsets
within a day are increasing, with no overlap across days. -/
theorem C7_schedule_sorted (cfg : Config) (curr : DateTime) (g : Nat → Nat) :
    (generate_commit_dates cfg curr g).Pairwise (fun a b => a.us < b.us) := by
  unfold generate_commit_dates
  exact genFrom_pairwise _ _ _

/-- Elementary facts about the clamp `max(1, min(20, max_commits))`. -/
theorem clamp_facts (mc : Int) :
    (1 : Int) ≤ max 1 (min 20 mc) ∧ max 1 (min 20 mc) ≤ 20
    ∧ (mc ≤ 0 → max 1 (min 20 mc) = 1)
    ∧ (20 < mc → max 1 (min 20 mc) = 20) := by
  simp only [max_def, min_def]
  split_ifs <;> omega

/-- With a non-positive frequency no day is ever included. -/
theorem genFrom_empty_of_freq {cfg : Config} {g : Nat → Nat} {start : DateTime}
    (hfr : cfg.frequency ≤ 0) : ∀ k n i, genFrom cfg g start k n i = [] := by
  intro k
  induction k with
  | zero => intro n i; rfl
  | succ k ih =>
    intro n i
    rw [genFrom]
    have h0 : ¬randint 0 100 (g i) < cfg.frequency := by
      have := randint_lb 0 100 (g i); omega
    by_cases hw : (cfg.no_weekends
        && decide (5 ≤ (start.addDays (n : Int)).weekday)) = true
    · rw [dayStep_skip hw]; simpa using ih (n + 1) i
    · rw [dayStep_excluded hw h0]; simpa using ih (n + 1) (i + 1)

/-- An included day contributes at least one commit date. -/
theorem dayStep_included_ne_nil {cfg : Config} {g : Nat → Nat} {day : DateTime}
    {i : Nat} (hw : ¬(cfg.no_weekends && decide (5 ≤ day.weekday)) = true)
    (hf : randint 0 100 (g i) < cfg.frequency) :
    (dayStep cfg g day i).1 ≠ [] := by
  rw [dayStep_included hw hf]
  intro h
  have hl := congrArg List.length h
  have hcb := count_bounds cfg.max_commits (g (i + 1)) (g (i + 2))
  simp only [List.length_map, List.length_range, List.length_nil] at hl
  omega

/-- The default configuration of the script (`parse_arguments` defaults). -/
def cfgDefault : Config :=
  { no_weekends := false, max_commits := 10, frequency := 80,
    repository := none, user_name := none, user_email := none,
    days_before := 365, days_after := 0 }

/-- The defaults restricted to a single candidate day. -/
def cfgOneDay : Config := { cfgDefault with days_before := 1 }

/-- C2: on an included day the number of commit dates produced is the
outer draw `randint(1, B)` whose bound `B` is a separate, independent
`_contributions_per_day()` draw from `[1, max(1, min(20, max_commits))]`
(the double randomization); the day consumes three oracle positions —
frequency draw at `i`, inner bound draw at `i + 1`, outer count draw at
`i + 2` — rather than reusing a single per-day count draw. -/
theorem C2_double_randomization (cfg : Config) (g : Nat → Nat)
    (day : DateTime) (i : Nat)
    (hw : ¬(cfg.no_weekends && decide (5 ≤ day.weekday)) = true)
    (hf : randint 0 100 (g i) < cfg.frequency) :
    (dayStep cfg g day i).1.length
        = (randint 1 (contributions_per_day cfg.max_commits (g (i + 1)))
            (g (i + 2))).toNat
    ∧ 1 ≤ randint 1 (contributions_per_day cfg.max_commits (g (i + 1)))
        (g (i + 2))
    ∧ randint 1 (contributions_per_day cfg.max_commits (g (i + 1))) (g (i + 2))
        ≤ contributions_per_day cfg.max_commits (g (i + 1))
    ∧ 1 ≤ contributions_per_day cfg.max_commits (g (i + 1))
    ∧ contributions_per_day cfg.max_commits (g (i + 1))
        ≤ max 1 (min 20 cfg.max_commits)
    ∧ (dayStep cfg g day i).2 = i + 3 := by
  have hcb := count_bounds cfg.max_commits (g (i + 1)) (g (i + 2))
  rw [dayStep_included hw hf]
  exact ⟨by simp, hcb.1, hcb.2.1, hcb.2.2.1, hcb.2.2.2.1, rfl⟩

theorem C2_double_randomization_witness :
    (dayStep cfgDefault (fun n => n) ⟨0⟩ 0).1.length = 1
    ∧ (dayStep cfgDefault (fun n => n) ⟨0⟩ 0).2 = 3 := by
  have h := C2_double_randomization cfgDefault (fun n => n) ⟨0⟩ 0
    (by decide) (by decide)
  exact ⟨h.1.trans (by decide), h.2.2.2.2.2⟩

/-- C3: on an included day the number of commits is at least 1 and at
most `max(1, min(20, max_commits))`; the clamp is 1 for any
`max_commits ≤ 0` and 20 for any `max_commits > 20`. -/
theorem C3_count_clamped (cfg : Config) (g : Nat → Nat) (day : DateTime)
    (i : Nat) (hw : ¬(cfg.no_weekends && decide (5 ≤ day.weekday)) = true)
    (hf : randint 0 100 (g i) < cfg.frequency) :
    1 ≤ (dayStep cfg g day i).1.length
    ∧ ((dayStep cfg g day i).1.length : Int) ≤ max 1 (min 20 cfg.max_commits)
    ∧ (cfg.max_commits ≤ 0 → max 1 (min 20 cfg.max_commits) = 1)
    ∧ (20 < cfg.max_commits → max 1 (min 20 cfg.max_commits) = 20) := by
  have hcb := count_bounds cfg.max_commits (g (i + 1)) (g (i + 2))
  have hcl := clamp_facts cfg.max_commits
  rw [dayStep_included hw hf]
  simp only [List.length_map, List.length_range]
  exact ⟨by omega, by omega, hcl.2.2.1, hcl.2.2.2⟩

/-- The defaults with a non-positive `max_commits`. -/
def cfgNegMax : Config := { cfgDefault with max_commits := -5 }

theorem C3_count_clamped_witness :
    1 ≤ (dayStep cfgNegMax (fun n => n) ⟨0⟩ 0).1.length
    ∧ max 1 (min 20 cfgNegMax.max_commits) = 1 :=
  ⟨(C3_count_clamped cfgNegMax (fun n => n) ⟨0⟩ 0 (by decide) (by decide)).1,
   (C3_count_clamped cfgNegMax (fun n => n) ⟨0⟩ 0 (by decide)
      (by decide)).2.2.1 (by decide)⟩

/-- C4: a day passing the weekend filter is included exactly when the
uniform draw from the inclusive range `[0, 100]` is strictly below the
configured frequency; with frequency 0 the schedule is always empty, and
with frequency 100 the day is excluded exactly when the draw equals
100. -/
theorem C4_frequency_gate (cfg : Config) (curr : DateTime) (g : Nat → Nat)
    (day : DateTime) (i : Nat) :
    (cfg.frequency = 0 → generate_commit_dates cfg curr g = [])
    ∧ 0 ≤ randint 0 100 (g i) ∧ randint 0 100 (g i) ≤ 100
    ∧ (¬(cfg.no_weekends && decide (5 ≤ day.weekday)) = true →
        ((dayStep cfg g day i).1 ≠ [] ↔ randint 0 100 (g i) < cfg.frequency))
    ∧ (cfg.frequency = 100 →
        ¬(cfg.no_weekends && decide (5 ≤ day.weekday)) = true →
        ((dayStep cfg g day i).1 = [] ↔ randint 0 100 (g i) = 100)) := by
  have hlb := randint_lb 0 100 (g i)
  have hub := randint_ub 0 100 (g i) (by norm_num)
  refine ⟨fun h0 => genFrom_empty_of_freq (by omega) _ _ _, hlb, hub, ?_, ?_⟩
  · intro hw
    constructor
    · intro hne
      by_contra hf
      exact hne (by rw [dayStep_excluded hw hf])
    · intro hf
      exact dayStep_included_ne_nil hw hf
  · intro h100 hw
    by_cases hf : randint 0 100 (g i) < cfg.frequency
    · have hne := dayStep_included_ne_nil hw hf
      constructor
      · intro h; exact absurd h hne
      · intro h; omega
    · rw [dayStep_excluded hw hf]
      constructor
      · intro _; omega
      · intro _; rfl

/-- The defaults with frequency 0. -/
def cfgFreq0 : Config := { cfgDefault with frequency := 0 }

theorem C4_frequency_gate_witness :
    generate_commit_dates cfgFreq0 ⟨0⟩ (fun _ => 0) = [] :=
  (C4_frequency_gate cfgFreq0 ⟨0⟩ (fun _ => 0) ⟨0⟩ 0).1 rfl

/-- C6 is false as stated: `replace(hour=20, minute=0)` keeps the
current time's seconds and microseconds, so with a current time of
00:00:30 the anchor's seconds are 30, not 0, and the produced commit
date also carries seconds 30. -/
theorem C6_seconds_counterexample :
    ((⟨30000000⟩ : DateTime).replaceHourMinute 20 0).second ≠ 0
    ∧ generate_commit_dates cfgOneDay ⟨30000000⟩ (fun _ => 0)
        = [⟨-14370000000⟩]
    ∧ ∃ d ∈ generate_commit_dates cfgOneDay ⟨30000000⟩ (fun _ => 0),
        d.second ≠ 0 := by decide

/-- C6 (amended): the anchor is the current time with hour 20 and minute
0, but its seconds and microseconds are inherited unchanged from the
current time (not zeroed); consequently every produced commit date has
the current time's seconds and microseconds. -/
theorem C6_amended_anchor (cfg : Config) (curr : DateTime) (g : Nat → Nat) :
    (curr.replaceHourMinute 20 0).hour = 20
    ∧ (curr.replaceHourMinute 20 0).minute = 0
    ∧ (curr.replaceHourMinute 20 0).second = curr.second
    ∧ (curr.replaceHourMinute 20 0).microsecond = curr.microsecond
    ∧ ∀ d ∈ generate_commit_dates cfg curr g,
        d.second = curr.second ∧ d.microsecond = curr.microsecond := by
  refine ⟨?_, ?_, ?_, ?_, ?_⟩
  · simp only [DateTime.hour, DateTime.timeOfDay, DateTime.replaceHourMinute,
      DateTime.dayNumber, usPerDay, usPerHour, usPerMinute, usPerSecond]
    omega
  · simp only [DateTime.minute, DateTime.timeOfDay, DateTime.replaceHourMinute,
      DateTime.dayNumber, usPerDay, usPerHour, usPerMinute, usPerSecond]
    omega
  · simp only [DateTime.second, DateTime.replaceHourMinute,
      DateTime.dayNumber, usPerDay, usPerHour, usPerMinute, usPerSecond]
    omega
  · simp only [DateTime.microsecond, DateTime.replaceHourMinute,
      DateTime.dayNumber, usPerDay, usPerHour, usPerMinute, usPerSecond]
    omega
  · intro d hd
    obtain ⟨j, m, _, _, hm, h4, _⟩ := mem_genFrom hd
    subst h4
    constructor
    · simp only [DateTime.second, DateTime.addDays, DateTime.addMinutes,
        DateTime.replaceHourMinute, DateTime.dayNumber, usPerDay, usPerHour,
        usPerMinute, usPerSecond]
      omega
    · simp only [DateTime.microsecond, DateTime.addDays, DateTime.addMinutes,
        DateTime.replaceHourMinute, DateTime.dayNumber, usPerDay, usPerHour,
        usPerMinute, usPerSecond]
      omega

theorem C6_amended_anchor_witness :
    (DateTime.mk (-14370000000)).second = (DateTime.mk 30000000).second :=
  ((C6_amended_anchor cfgOneDay ⟨30000000⟩ (fun _ => 0)).2.2.2.2
    ⟨-14370000000⟩ (by decide)).1

theorem neg_one_le_rfindChar (c : Char) (l : List Char) : -1 ≤ rfindChar c l := by
  induction l with
  | nil => simp [rfindChar]
  | cons x xs ih =>
    rw [rfindChar]
    split_ifs <;> omega

theorem rfindChar_lt_length (c : Char) (l : List Char) :
    rfindChar c l < l.length := by
  induction l with
  | nil => simp [rfindChar]
  | cons x xs ih =>
    rw [rfindChar]
    simp only [List.length_cons]
    split_ifs <;> push_cast <;> omega

theorem rfindChar_eq_neg_one_iff (c : Char) (l : List Char) :
    rfindChar c l = -1 ↔ c ∉ l := by
  induction l with
  | nil => simp [rfindChar]
  | cons x xs ih =>
    rw [rfindChar]
    have h2 := neg_one_le_rfindChar c xs
    by_cases h : rfindChar c xs = -1
    · rw [if_pos h]
      by_cases hx : x = c
      · simp [hx, List.mem_cons]
      · simp only [hx, if_false, true_iff, List.mem_cons]
        push_neg
        exact ⟨fun hc => hx hc.symm, ih.1 h⟩
    · rw [if_neg h]
      have hmem : c ∈ xs := by
        by_contra hc
        exact h (ih.2 hc)
      simp only [List.mem_cons]
      constructor
      · intro habs; omega
      · intro habs; exact absurd (Or.inr hmem) habs

theorem rfindChar_append (c : Char) (l1 l2 : List Char) :
    rfindChar c (l1 ++ l2)
      = if rfindChar c l2 = -1 then rfindChar c l1
        else (l1.length : Int) + rfindChar c l2 := by
  induction l1 with
  | nil => by_cases h : rfindChar c l2 = -1 <;> simp [h, rfindChar]
  | cons x xs ih =>
    rw [List.cons_append, rfindChar, ih, rfindChar]
    have h2 := neg_one_le_rfindChar c l2
    have h3 := neg_one_le_rfindChar c xs
    simp only [List.length_cons]
    split_ifs <;> push_cast <;> omega

/-- A Python slice with a nonnegative stop at or before the start is
empty. -/
theorem pySlice_eq_nil {s : List Char} {start stop : Int} (h0 : 0 ≤ stop)
    (h : stop ≤ start) : pySlice s start stop = [] := by
  simp only [pySlice]
  rw [if_neg (by omega), if_neg (by omega)]
  have hm : min stop (s.length : Int) ≤ min start (s.length : Int) :=
    min_le_min h (le_refl _)
  have hz : (min stop (s.length : Int) - min start (s.length : Int)).toNat = 0 := by
    omega
  rw [hz]
  simp

/-- C9: when the target directory already exists, `os.mkdir` raises the
directory-exists error, which propagates as the overall outcome with no
retry; no driver action (initialization, commits, remote setup, success
notice) runs. -/
theorem C9_directory_exists (cfg : Config) (curr : DateTime) (g : Nat → Nat)
    (fs : List String)
    (h : determine_directory cfg.repository curr ∈ fs) :
    setup cfg curr g fs
      = ([], .error (.fileExistsError (determine_directory cfg.repository curr))) := by
  unfold setup create_and_initialize_repository
  rw [if_pos h]

/-- The defaults with a remote URL. -/
def cfgRepo : Config := { cfgDefault with repository := some "x/y.z" }

theorem C9_directory_exists_witness :
    setup cfgRepo ⟨0⟩ (fun _ => 0) ["y"]
      = ([], .error (.fileExistsError (determine_directory cfgRepo.repository ⟨0⟩))) :=
  C9_directory_exists cfgRepo ⟨0⟩ (fun _ => 0) ["y"] (by decide)

/-- C10 is false as stated: the URL `foo/bar` contains no dot after its
last slash (indeed no dot at all), yet the derived directory name is
`ba`, not the empty string, because Python resolves the slice end `-1`
as `len - 1`. -/
theorem C10_no_dot_counterexample :
    rfindChar '.' "foo/bar".data = -1
    ∧ determine_directory (some "foo/bar") ⟨0⟩ = "ba"
    ∧ determine_directory (some "foo/bar") ⟨0⟩ ≠ "" := by decide

/-- C10 (amended): when the URL contains a dot but none after its last
slash, the slice end falls at or before the slice start and the derived
name is the empty string; when the URL contains no dot at all, the slice
end `-1` instead denotes the position before the last character, so the
derived name is everything after the last slash with the final character
removed. -/
theorem C10_amended_no_dot_after_slash (url : String) (curr : DateTime) :
    (0 ≤ rfindChar '.' url.data → rfindChar '.' url.data ≤ rfindChar '/' url.data →
      determine_directory (some url) curr = "")
    ∧ (rfindChar '.' url.data = -1 →
      determine_directory (some url) curr
        = ⟨(url.data.drop (rfindChar '/' url.data + 1).toNat).dropLast⟩) := by
  constructor
  · intro h0 h1
    simp only [determine_directory]
    rw [pySlice_eq_nil h0 (by omega)]
  · intro h
    simp only [determine_directory]
    apply String.ext
    simp only [pySlice, h]
    have hs := neg_one_le_rfindChar '/' url.data
    have hl := rfindChar_lt_length '/' url.data
    rw [if_pos (show (-1 : Int) < 0 by norm_num)]
    rw [if_neg (show ¬(rfindChar '/' url.data + 1 < 0) by omega)]
    rw [min_eq_left (by omega)]
    rw [List.dropLast_eq_take]
    simp only [List.length_drop]
    congr 1
    omega

theorem C10_amended_witness :
    determine_directory (some "a.b/c") ⟨0⟩ = "" :=
  (C10_amended_no_dot_after_slash "a.b/c" ⟨0⟩).1 (by decide) (by decide)

/-- C8: with a remote URL of the shape `pre/name.ext` (last slash before
`name`, last dot before `ext`), the derived directory name is exactly
`name`; with no URL it is `repository-` followed by the start time
formatted `YYYY-MM-DD-HH-MM-SS`, here evaluated at
2024-02-29 13:20:11. -/
theorem C8_directory_naming :
    (∀ (pre name ext : String) (curr : DateTime),
        '/' ∉ name.data → '/' ∉ ext.data → '.' ∉ ext.data →
        determine_directory (some (pre ++ "/" ++ name ++ "." ++ ext)) curr
          = name)
    ∧ determine_directory none ⟨63844809611000000⟩
        = "repository-2024-02-29-13-20-11" := by
  constructor
  · intro pre name ext curr h1 h2 h3
    simp only [determine_directory]
    have hex : rfindChar '.' ext.data = -1 :=
      (rfindChar_eq_neg_one_iff '.' ext.data).2 h3
    have hslash2 : rfindChar '/' (name.data ++ '.' :: ext.data) = -1 := by
      apply (rfindChar_eq_neg_one_iff _ _).2
      simp only [List.mem_append, List.mem_cons]
      push_neg
      exact ⟨h1, by decide, h2⟩
    have hin : rfindChar '.' ('.' :: ext.data) = 0 := by
      simp only [rfindChar]
      rw [hex]
      simp
    have hdot2 : rfindChar '.' (name.data ++ '.' :: ext.data)
        = (name.data.length : Int) := by
      rw [rfindChar_append, hin]
      simp
    have hsl1 : rfindChar '/' (pre.data ++ ['/']) = (pre.data.length : Int) := by
      rw [rfindChar_append, if_neg (by decide)]
      rw [show rfindChar '/' (['/'] : List Char) = 0 from by decide]
      simp
    have hdata : (pre ++ "/" ++ name ++ "." ++ ext).data
        = (pre.data ++ ['/']) ++ (name.data ++ '.' :: ext.data) := by
      simp [String.data_append]
    have hslashL : rfindChar '/'
        ((pre.data ++ ['/']) ++ (name.data ++ '.' :: ext.data))
        = (pre.data.length : Int) := by
      rw [rfindChar_append, if_pos hslash2, hsl1]
    have hdotL : rfindChar '.'
        ((pre.data ++ ['/']) ++ (name.data ++ '.' :: ext.data))
        = (pre.data.length : Int) + 1 + (name.data.length : Int) := by
      rw [rfindChar_append, hdot2, if_neg (by omega)]
      simp only [List.length_append, List.length_cons, List.length_nil]
      push_cast
      ring
    apply String.ext
    show pySlice (pre ++ "/" ++ name ++ "." ++ ext).data
        (rfindChar '/' (pre ++ "/" ++ name ++ "." ++ ext).data + 1)
        (rfindChar '.' (pre ++ "/" ++ name ++ "." ++ ext).data) = name.data
    rw [hdata, hslashL, hdotL]
    have hlen : ((((pre.data ++ ['/']) ++ (name.data ++ '.' :: ext.data)).length : Int))
        = (pre.data.length : Int) + 1 + (name.data.length : Int) + 1
          + (ext.data.length : Int) := by
      simp only [List.length_append, List.length_cons, List.length_nil]
      push_cast
      ring
    simp only [pySlice]
    rw [if_neg (by omega), if_neg (by omega)]
    rw [min_eq_left (by omega), min_eq_left (by omega)]
    rw [show ((pre.data.length : Int) + 1 + (name.data.length : Int)
        - ((pre.data.length : Int) + 1)).toNat = name.data.length from by omega]
    rw [show ((pre.data.length : Int) + 1).toNat = (pre.data ++ ['/']).length
        from by simp]
    rw [List.drop_left, List.take_left]
  · decide

theorem C8_directory_naming_witness :
    determine_directory
        (some ("https://example.com/foo" ++ "/" ++ "bar-project" ++ "." ++ "git"))
        ⟨0⟩ = "bar-project" :=
  C8_directory_naming.1 "https://example.com/foo" "bar-project" "git" ⟨0⟩
    (by decide) (by decide) (by decide)

theorem C1_commit_window_witness :
    ∃ n m : Int, -cfgOneDay.days_before ≤ n ∧ n < cfgOneDay.days_after ∧
      0 ≤ m ∧ m < 20 ∧
      (DateTime.mk (-14400000000)).us
        = ((⟨0⟩ : DateTime).replaceHourMinute 20 0).us + n * usPerDay
          + m * usPerMinute ∧
      ((⟨0⟩ : DateTime).replaceHourMinute 20 0).us
          - cfgOneDay.days_before * usPerDay ≤ (DateTime.mk (-14400000000)).us ∧
      (DateTime.mk (-14400000000)).us
        < ((⟨0⟩ : DateTime).replaceHourMinute 20 0).us
          + cfgOneDay.days_after * usPerDay :=
  C1_commit_window cfgOneDay ⟨0⟩ (fun _ => 0) ⟨-14400000000⟩ (by decide)

/-- The defaults with weekends suppressed and one candidate day. -/
def cfgNoWeekends : Config :=
  { cfgDefault with no_weekends := true, days_before := 1 }

theorem C5_no_weekends_witness :
    (DateTime.mk 72000000000).weekday < 5 :=
  C5_no_weekends cfgNoWeekends ⟨86400000000⟩ (fun _ => 0) rfl
    ⟨72000000000⟩ (by decide)

end GHContrib
